import Mathlib

/-!
Shallow embedding of the clipspeak playback core (speaker.py, espeak_text.py,
text.py) and proofs about the spec's claims.  Machine integers are modelled as
`Int` (Python integers are unbounded), byte strings as `List UInt8`, fallible
code as `Except PyErr`, and the worker's busy loop with an explicit fuel
parameter (`none` = the loop has not terminated within the given fuel).
-/

/-- Python exceptions that the embedded code can raise. -/
inductive PyErr where
  | attrError
  | keyError
  | zeroDiv
  deriving DecidableEq, Repr

/-- Normalisation of a Python slice index against a sequence of length `L`:
negative indices count from the end (clamped at 0), non-negative ones are
clamped at `L`. -/
def pyIdx (L : Nat) (i : Int) : Nat :=
  if i < 0 then (L + i).toNat else min i.toNat L

/-- Python slice `l[i:j]`. -/
def pySlice (l : List α) (i j : Int) : List α :=
  (l.take (pyIdx l.length j)).drop (pyIdx l.length i)

/-- The state of an `EspeakText` object (espeak_text.py): the growable audio
byte buffer, the read cursor `_position`, the `_speaking`/`_done`/`_closed`
flags and the optionally-defined `_length` attribute (`none` models the
attribute never having been assigned).  The two counters record how many
times the engine's `espeak_Cancel` and `espeak_Terminate` were invoked. -/
structure EspeakText where
  data_buffer : List UInt8
  position : Int
  speaking : Bool
  done : Bool
  closed : Bool
  length : Option Int
  cancel_calls : Nat
  terminate_calls : Nat
  deriving DecidableEq, Repr

/-- The state of a freshly constructed `EspeakText` just after `__init__`
ran `_speak` (which sets `_speaking = True`) and before the synthesis engine
has invoked the callback: empty buffer, cursor 0, `_length` unassigned. -/
def espeakInit : EspeakText :=
  { data_buffer := []
    position := 0
    speaking := true
    done := false
    closed := false
    length := none
    cancel_calls := 0
    terminate_calls := 0 }

/-- Model of `EspeakText.__call__`, the frame-delivery callback.  `wav = none` models a
null `wav` pointer (end of synthesis); `wav = some bytes` models a delivered
batch, whose bytes are appended and `_length` updated.  Returns the engine
continue/stop code alongside the new state. -/
def synthCallback (s : EspeakText) (wav : Option (List UInt8)) :
    EspeakText × Int :=
  match wav with
  | none => ({ s with done := true, speaking := false }, 1)
  | some bytes =>
      let buf := s.data_buffer ++ bytes
      ({ s with data_buffer := buf, length := some (buf.length : Int) },
       if s.speaking then 0 else 1)

/-- Fold a sequence of callback deliveries over a stream state. -/
def applyBatches (s : EspeakText) (bs : List (Option (List UInt8))) :
    EspeakText :=
  bs.foldl (fun t b => (synthCallback t b).1) s

/-- The `length` property: reads `self._length`, raising `AttributeError`
when the attribute was never assigned. -/
def length_prop (s : EspeakText) : Except PyErr Int :=
  match s.length with
  | none => Except.error PyErr.attrError
  | some l => Except.ok l

/-- Model of `EspeakText._get_position`. -/
def get_position (s : EspeakText) : Int :=
  s.position

/-- Model of `EspeakText._set_position`: assigns the cursor only when
`position <= self._length`; reading `self._length` raises `AttributeError`
when it was never assigned. -/
def set_position (s : EspeakText) (p : Int) : Except PyErr EspeakText :=
  match s.length with
  | none => Except.error PyErr.attrError
  | some l => Except.ok (if p ≤ l then { s with position := p } else s)

/-- Model of `EspeakText.close`: on a non-closed stream clears `_speaking`, issues one
engine cancel and one engine terminate and marks `_closed`; on a closed
stream does nothing. -/
def close (s : EspeakText) : EspeakText :=
  if s.closed then s
  else
    { s with speaking := false
             cancel_calls := s.cancel_calls + 1
             terminate_calls := s.terminate_calls + 1
             closed := true }

/-- The body of `EspeakText.read`'s `while len(data) < size` loop, with fuel.
`buf`, `len?`, `done` are the object's `_data_buffer`, `_length`, `_done`;
the loop state is `(size, data, pos)` for the local `size`, the accumulator
`data` and `self._position`.  Each iteration mirrors the source: shrink
`size` by `len(data)`, append the slice `buf[pos:pos+size]`, advance the
cursor by `len(data)`, then test `self._position == self._length and
self._done` (raising `AttributeError` if `_length` is unassigned), padding
a non-empty short read with null bytes before breaking. -/
def readLoop (buf : List UInt8) (len? : Option Int) (done : Bool) :
    Nat → Int → List UInt8 → Int → Option (Except PyErr (List UInt8 × Int))
  | 0, _, _, _ => none
  | fuel + 1, size, data, pos =>
      if (data.length : Int) < size then
        let size2 := size - (data.length : Int)
        let chunk := pySlice buf pos (pos + size2)
        let data2 := data ++ chunk
        let pos2 := pos + (data2.length : Int)
        match len? with
        | none => some (Except.error PyErr.attrError)
        | some len =>
            if pos2 = len ∧ done = true then
              some (Except.ok
                ((if data2.isEmpty then data2
                  else data2 ++
                    List.replicate (size2 - (data2.length : Int)).toNat 0),
                 pos2))
            else readLoop buf len? done fuel size2 data2 pos2
      else some (Except.ok (data, pos))

/-- Model of `EspeakText.read(size)`: runs the read loop with the given fuel; `none`
means the loop did not terminate within the fuel. -/
def EspeakText.read (s : EspeakText) (size : Int) (fuel : Nat) :
    Option (Except PyErr (List UInt8 × EspeakText)) :=
  (readLoop s.data_buffer s.length s.done fuel size [] s.position).map
    (fun r => r.map (fun dp => (dp.1, { s with position := dp.2 })))

/-- Default sentence terminators of `Text.__init__` (text.py). -/
def defaultTerms : List Char := ['.', '!', '?']

/-- Helper for `sentenceFindall`: scans the text accumulating characters in
`acc`; every time a terminator is met the accumulated run (terminator
included) is emitted; a trailing terminator-free run is dropped, exactly as
`re.findall` of the non-greedy pattern matching any characters up to and
including a terminator (with DOTALL) behaves. -/
def sentenceFindallAux (terms : List Char) :
    List Char → List Char → List (List Char)
  | [], _ => []
  | c :: cs, acc =>
      if c ∈ terms then (acc ++ [c]) :: sentenceFindallAux terms cs []
      else sentenceFindallAux terms cs (acc ++ [c])

/-- The list of matches of the sentence regex of `Text.__init__` on the
text. -/
def sentenceFindall (terms : List Char) (s : List Char) : List (List Char) :=
  sentenceFindallAux terms s []

/-- The line-boundary characters of Python's `str.splitlines`. -/
def isLinebreak (c : Char) : Bool :=
  c ∈ ['\n', '\r', '\x0b', '\x0c', '\x1c', '\x1d', '\x1e', '\x85',
       ' ', ' ']

/-- Helper for `splitlines`: Python's `str.splitlines`, with `\r\n` counted
as a single boundary and no empty trailing line. -/
def splitlinesAux : List Char → List Char → List (List Char)
  | [], acc => if acc = [] then [] else [acc]
  | c :: cs, acc =>
      if isLinebreak c then
        acc :: splitlinesAux
          (if c = '\x0d' ∧ cs.head? = some '\x0a' then cs.tail else cs) []
      else splitlinesAux cs (acc ++ [c])
termination_by s _ => s.length
decreasing_by
  all_goals simp_wf
  all_goals split_ifs
  all_goals simp [List.length_tail]
  all_goals omega

/-- Python's `str.splitlines`. -/
def splitlines (s : List Char) : List (List Char) :=
  splitlinesAux s []

/-- The state of a `Text` object (text.py): the raw text, the chunk list
`_line_list`, `_length` and the cursor `_index`. -/
structure TextState where
  text : List Char
  line_list : List (List Char)
  length : Int
  index : Int
  deriving DecidableEq, Repr

/-- Model of `Text.__init__`: chunks are the sentence-regex matches when any exist,
else the line-split of a non-empty text, else empty; `_length` is the chunk
count when chunks exist, else the raw text length. -/
def mkText (text : List Char) (terms : List Char := defaultTerms) :
    TextState :=
  let sl := sentenceFindall terms text
  let ll := if sl ≠ [] then sl
            else if text ≠ [] then splitlines text else []
  { text := text
    line_list := ll
    length := if ll ≠ [] then (ll.length : Int) else (text.length : Int)
    index := 0 }

/-- Python `' '.join(lines)`. -/
def joinSpace : List (List Char) → List Char
  | [] => []
  | [l] => l
  | l :: ls => l ++ ' ' :: joinSpace ls

/-- Python `lines.replace('\n', ' ')`. -/
def replaceNl (s : List Char) : List Char :=
  s.map (fun c => if c = '\n' then ' ' else c)

/-- Model of `Text.readlines(count)`: for `count == -1` the source sets the index to
the length and then returns `self._lines[slice_start:]` — an attribute that
is never assigned anywhere in the class (the chunk list is `_line_list`),
so the access raises `AttributeError`.  Any other count joins a slice of the
chunk list with spaces, advances the index by
`count % ((length - start) + count)` (Python `%`, raising
`ZeroDivisionError` on a zero modulus) and collapses newlines to spaces.
Returns the new state alongside the outcome. -/
def readlines (t : TextState) (count : Int) :
    TextState × Except PyErr (List Char) :=
  let slice_start := t.index
  if count = -1 then
    ({ t with index := t.length }, Except.error PyErr.attrError)
  else
    let slice_end := slice_start + count
    let lines := joinSpace (pySlice t.line_list slice_start slice_end)
    let m := (t.length - slice_start) + count
    if m = 0 then (t, Except.error PyErr.zeroDiv)
    else ({ t with index := t.index + Int.fmod count m },
          Except.ok (replaceNl lines))

/-- The shared `msg_dict` of `Reader` (speaker.py), a key-value map whose
keys are only ever the ones below; `none` models an absent key.  No code in
the repository ever stores a `filename` key. -/
structure MsgDict where
  text : Option String
  playing : Option Bool
  paused : Option Bool
  length : Option Int
  filename : Option String
  deriving DecidableEq, Repr

/-- The `msg_dict` of a freshly constructed `Reader`: empty. -/
def readerInitMsgDict : MsgDict :=
  { text := none, playing := none, paused := none, length := none,
    filename := none }

/-- Model of `Reader.playing`: `msg_dict.get('playing', False)`. -/
def reader_playing (md : MsgDict) : Bool :=
  md.playing.getD false

/-- Model of `Reader.paused`: `msg_dict.get('paused', False)`. -/
def reader_paused (md : MsgDict) : Bool :=
  md.paused.getD false

/-- Model of `Reader.pause`: `msg_dict['paused'] = True`, unconditionally. -/
def reader_pause (md : MsgDict) : MsgDict :=
  { md with paused := some true }

/-- A transport command sent over the control pipe to the worker. -/
inductive PosCmd where
  | getposition
  | setposition (v : Int)
  deriving DecidableEq, Repr

/-- Model of `Reader.playing_wrapper`: when `playing` is falsy the wrapper formats
`"%(filename)s is not playing." % msg_dict` — a lookup of the `filename`
key that raises `KeyError` when the key is absent — and returns `None`;
otherwise the wrapped body runs.  The result is `ok none` for the
not-playing no-op, `ok (some a)` when the body produced `a`. -/
def playingWrapper (md : MsgDict) (body : α) : Except PyErr (Option α) :=
  if reader_playing md = false then
    match md.filename with
    | none => Except.error PyErr.keyError
    | some _ => Except.ok none
  else Except.ok (some body)

/-- The `Reader.position` getter: guarded by `playing_wrapper`; when playing
it sends `getposition` down the pipe (the command it would forward is
returned). -/
def reader_position_get (md : MsgDict) : Except PyErr (Option PosCmd) :=
  playingWrapper md PosCmd.getposition

/-- The `Reader.position` setter: guarded by `playing_wrapper`; when playing
it sends `setposition v` down the pipe. -/
def reader_position_set (md : MsgDict) (v : Int) :
    Except PyErr (Option PosCmd) :=
  playingWrapper md (PosCmd.setposition v)

/-- The environment of one `Reader._play_proc` execution: the outcome of the
`EspeakText(**msg_dict)` construction-plus-synthesis (`none` = it raised),
whether opening the ALSA device raised, and whether some iteration of the
`try` body (device writes, engine reads, pipe handling) raised. -/
structure PlayEnv where
  synth : Option EspeakText
  deviceOpenFails : Bool
  loopRaises : Bool
  deriving DecidableEq, Repr

/-- The observable outcome of one `Reader._play_proc` execution: whether an
exception escaped the worker body, the final shared dict, whether the audio
device ends closed, and whether the stream object was closed. -/
structure PlayResult where
  raised : Bool
  md : MsgDict
  deviceClosed : Bool
  fileobjClosed : Bool
  deriving DecidableEq, Repr

/-- Model of `Reader._play_proc`, following the source's control flow: the stream is
opened in a `with` block; `msg_dict['length'] = fileobj.length` and the
device open run before the `try`, so a failure there propagates out of the
worker body (the `with` still closes the stream) and `playing` is never
cleared; once inside the `try`, any failure of the loop body is caught and
printed, the `finally` closes the device, and `msg_dict['playing'] = False`
runs after the `with` block. -/
def play_proc (md : MsgDict) (env : PlayEnv) : PlayResult :=
  match env.synth with
  | none =>
      { raised := true, md := md, deviceClosed := true,
        fileobjClosed := false }
  | some fo =>
      match fo.length with
      | none =>
          { raised := true, md := md, deviceClosed := true,
            fileobjClosed := true }
      | some l =>
          let md1 := { md with length := some l }
          if env.deviceOpenFails then
            { raised := true, md := md1, deviceClosed := true,
              fileobjClosed := true }
          else
            { raised := false, md := { md1 with playing := some false },
              deviceClosed := true, fileobjClosed := true }

/-- The `EspeakText` state after a synthesis run that delivered zero batches:
the engine only signalled end-of-data. -/
def zeroBatchStream : EspeakText := applyBatches espeakInit [none]

/-- A stopped `Reader`'s shared dict after a job finished. -/
def mdStopped : MsgDict :=
  { readerInitMsgDict with playing := some false, paused := some false }

/-- A `Reader`'s shared dict right after `read(text)` started a job. -/
def mdJob : MsgDict :=
  { readerInitMsgDict with text := some "", playing := some true, paused := some true }

/-- A ten-byte synthesised stream with the cursor at 3. -/
def tenByteStream : EspeakText :=
  { espeakInit with data_buffer := List.replicate 10 0, position := 3, length := some 10 }

/-- C1: the spec says a position get/set while not playing reports a
user-visible message, returns None and raises no exception.  The code
formats the message with `"%(filename)s is not playing." % self._msg_dict`,
but no code in the repository ever stores a `filename` key in `msg_dict`
(its keys are `text`, `playing`, `paused`, `length` and the kwargs of
`Reader.read`, which `cliptext.py` always calls as `read(text)`), so the
lookup raises `KeyError` instead: on a fresh `Reader`, and on a `Reader`
whose job has stopped, both the getter and the setter raise. -/
theorem C1_position_not_playing_raises_keyerror :
    reader_position_get readerInitMsgDict = Except.error PyErr.keyError ∧
    reader_position_set readerInitMsgDict 5 = Except.error PyErr.keyError ∧
    reader_position_get mdStopped = Except.error PyErr.keyError ∧
    reader_position_set mdStopped 5 = Except.error PyErr.keyError := by
  refine ⟨rfl, rfl, rfl, rfl⟩

/-- C5: the spec says `readlines(-1)` returns all remaining chunks joined
with spaces without raising.  The source's `count == -1` branch returns
`self._lines[slice_start:]`, but the attribute `_lines` is never assigned
anywhere in the class (the chunk list lives in `_line_list`), so the call
raises `AttributeError` on every `Text` object — here on one holding two
chunks. -/
theorem C5_readlines_all_raises_attrerror :
    (readlines (mkText "Hello world. How are you?".data) (-1)).2 =
      Except.error PyErr.attrError ∧
    (mkText "Hello world. How are you?".data).line_list ≠ [] ∧
    (readlines (mkText "Hello world. How are you?".data) (-1)).1.index =
      (mkText "Hello world. How are you?".data).length := by
  refine ⟨rfl, by decide, rfl⟩

/-- C8 counterexample: with `playing` false and `paused` false, `pause()`
flips the `paused` observer from `false` to `true`, so the call is not a
no-op on the shared transport state. -/
theorem C8_counterexample :
    reader_paused mdStopped = false ∧
    reader_paused (reader_pause mdStopped) = true ∧
    reader_playing mdStopped = false := by
  refine ⟨rfl, rfl, rfl⟩

/-- C8 amended: `pause()` while not playing raises no error and leaves
`playing` (and the rest of the shared dict) unchanged, but it does set
`paused` to true unconditionally — the `paused` observer reads true
afterwards (the controller's own `read()` relies on exactly this
pre-pausing). -/
theorem C8_pause_sets_paused_unconditionally (md : MsgDict)
    (_h : reader_playing md = false) :
    reader_paused (reader_pause md) = true ∧
    (reader_pause md).playing = md.playing ∧
    (reader_pause md).text = md.text ∧
    (reader_pause md).length = md.length := by
  refine ⟨rfl, rfl, rfl, rfl⟩

/-- C8 witness: the amended theorem applied to a stopped `Reader`. -/
theorem C8_pause_sets_paused_unconditionally_witness :
    reader_paused (reader_pause mdStopped) = true ∧
    (reader_pause mdStopped).playing = some false :=
  ⟨(C8_pause_sets_paused_unconditionally mdStopped rfl).1,
   (C8_pause_sets_paused_unconditionally mdStopped rfl).2.1⟩

/-- C9: `close()` is idempotent: the first call on a non-closed stream
clears `_speaking`, issues exactly one engine cancel and one engine
terminate and marks `_closed`; a call on a closed stream changes nothing
and issues no engine calls; composing `close` with itself equals one
`close`. -/
theorem C9_close_idempotent (s : EspeakText) :
    (s.closed = false →
      close s = { s with speaking := false
                         cancel_calls := s.cancel_calls + 1
                         terminate_calls := s.terminate_calls + 1
                         closed := true }) ∧
    (s.closed = true → close s = s) ∧
    close (close s) = close s := by
  unfold close
  rcases hc : s.closed with _ | _ <;> simp [hc]

/-- C9 witness: the theorem applied to a freshly initialised stream. -/
theorem C9_close_idempotent_witness :
    close espeakInit =
      { espeakInit with speaking := false, cancel_calls := 1, terminate_calls := 1, closed := true } ∧
    close (close espeakInit) = close espeakInit :=
  ⟨(C9_close_idempotent espeakInit).1 rfl,
   (C9_close_idempotent espeakInit).2.2⟩

/-- C6 counterexample: on a stream of length 10 with cursor 3, setting the
position to -5 stores -5 (the cursor goes negative — no clamping to 0), and
setting it to 20 leaves the cursor at 3 (no clamping to the length). -/
theorem C6_counterexample :
    (set_position tenByteStream (-5)).map get_position = Except.ok (-5) ∧
    ((-5 : Int) < 0) ∧
    (set_position tenByteStream 20).map get_position = Except.ok 3 ∧
    ((3 : Int) ≠ 20 ∧ (3 : Int) ≠ 10) := by
  refine ⟨rfl, by norm_num, rfl, by norm_num, by norm_num⟩

/-- C6 amended: `_set_position(k)` assigns the cursor exactly `k` whenever
`k ≤ length` — including negative `k`, with no lower clamp — and leaves the
state entirely unchanged when `k > length` (no clamping to `length`); in
particular the set-then-get round trip returns `k` for every `k ≤ length`,
which covers the claimed `0 ≤ k ≤ length` range. -/
theorem C6_set_position_no_clamp (s : EspeakText) (l k : Int)
    (h : s.length = some l) :
    (k ≤ l → (set_position s k).map get_position = Except.ok k) ∧
    (l < k → set_position s k = Except.ok s) := by
  unfold set_position
  rw [h]
  constructor
  · intro hk
    simp [Except.map, get_position, hk]
  · intro hk
    simp [not_le.mpr hk]

/-- C6 witness: the amended theorem applied on a length-10 stream at
`k = -5` and `k = 20`. -/
theorem C6_set_position_no_clamp_witness :
    (set_position tenByteStream (-5)).map get_position = Except.ok (-5) ∧
    set_position tenByteStream 20 = Except.ok tenByteStream :=
  ⟨(C6_set_position_no_clamp tenByteStream 10 (-5) rfl).1 (by norm_num),
   (C6_set_position_no_clamp tenByteStream 10 20 rfl).2 (by norm_num)⟩

/-- C2 counterexample: a worker whose synthesis run delivered zero batches
reaches `msg_dict['length'] = fileobj.length` with `_length` unassigned;
the `AttributeError` is raised before the `try` block, propagates out of
the worker body, and `playing` is left at `true` — it is not cleared as the
last act. -/
theorem C2_counterexample :
    (play_proc mdJob
      { synth := some zeroBatchStream, deviceOpenFails := false, loopRaises := false }).raised
      = true ∧
    (play_proc mdJob
      { synth := some zeroBatchStream, deviceOpenFails := false, loopRaises := false }).md.playing
      = some true := by
  refine ⟨rfl, rfl⟩

/-- C2 amended: whenever opening the synthesis stream succeeds, its
`length` attribute is defined, and opening the audio device succeeds, then
no exception propagates out of the worker body — any failure of the loop
body is caught and logged — the device is closed on every exit path, the
published length is visible, and `playing` is set to false as the last act;
but a failure before the `try` block (stream construction, the `length`
publication, or the device open) instead propagates and skips the
`playing = False` write. -/
theorem C2_loop_failures_contained (md : MsgDict) (env : PlayEnv)
    (fo : EspeakText) (l : Int) (h1 : env.synth = some fo)
    (h2 : fo.length = some l) (h3 : env.deviceOpenFails = false) :
    (play_proc md env).raised = false ∧
    (play_proc md env).md.playing = some false ∧
    (play_proc md env).deviceClosed = true ∧
    (play_proc md env).md.length = some l := by
  simp [play_proc, h1, h2, h3]

/-- C2 witness: the amended theorem on a one-batch synthesis run, with the
loop body raising. -/
theorem C2_loop_failures_contained_witness :
    (play_proc mdJob
      { synth := some (applyBatches espeakInit [some [1, 2], none]), deviceOpenFails := false, loopRaises := true }).raised
      = false ∧
    (play_proc mdJob
      { synth := some (applyBatches espeakInit [some [1, 2], none]), deviceOpenFails := false, loopRaises := true }).md.playing
      = some false :=
  ⟨(C2_loop_failures_contained mdJob _ (applyBatches espeakInit [some [1, 2], none]) 2 rfl rfl rfl).1,
   (C2_loop_failures_contained mdJob _ (applyBatches espeakInit [some [1, 2], none]) 2 rfl rfl rfl).2.1⟩

/-- After any sequence of callback deliveries, `_length` is still unassigned
exactly when it started unassigned and no delivery carried a (non-null)
batch. -/
theorem applyBatches_length_none (bs : List (Option (List UInt8))) :
    ∀ s : EspeakText,
      (applyBatches s bs).length = none ↔
        (s.length = none ∧ ∀ b ∈ bs, b = none) := by
  induction bs with
  | nil => intro s; simp [applyBatches]
  | cons b bs ih =>
      intro s
      rcases b with _ | w
      · simpa [applyBatches, synthCallback] using
          ih { s with done := true, speaking := false }
      · have h := ih ((synthCallback s (some w)).1)
        simp only [applyBatches, List.foldl_cons] at h ⊢
        rw [h]
        simp [synthCallback]

/-- C10: `_length` is only assigned once the frame-delivery callback has
received at least one non-null batch: after any run of deliveries all of
which signalled end-of-data, the `length` property raises `AttributeError`;
conversely any delivered batch leaves `_length` assigned.  On the fresh
stream the property raises, and a `read(100)` on the zero-batch completed
stream reaches the end-of-data check `self._position == self._length` and
raises `AttributeError` as well (rather than treating the length as 0). -/
theorem C10_length_undefined_without_data :
    (∀ bs : List (Option (List UInt8)), (∀ b ∈ bs, b = none) →
      length_prop (applyBatches espeakInit bs) = Except.error PyErr.attrError) ∧
    (∀ (bs : List (Option (List UInt8))) (w : List UInt8),
      some w ∈ bs → (applyBatches espeakInit bs).length ≠ none) ∧
    length_prop espeakInit = Except.error PyErr.attrError ∧
    (∀ fuel : Nat,
      EspeakText.read zeroBatchStream 100 (fuel + 1) = some (Except.error PyErr.attrError)) := by
  refine ⟨?_, ?_, rfl, ?_⟩
  · intro bs hb
    have h : (applyBatches espeakInit bs).length = none :=
      (applyBatches_length_none bs espeakInit).2 ⟨rfl, hb⟩
    simp [length_prop, h]
  · intro bs w hw h
    have h2 := (applyBatches_length_none bs espeakInit).1 h
    have := h2.2 (some w) hw
    simp at this
  · intro fuel
    simp [EspeakText.read, zeroBatchStream, applyBatches, synthCallback,
          espeakInit, readLoop, pySlice, pyIdx, Except.map]

/-- C10 witness: the theorem applied to the zero-batch delivery sequence
and to a delivery that did carry data. -/
theorem C10_length_undefined_without_data_witness :
    length_prop (applyBatches espeakInit [none]) = Except.error PyErr.attrError ∧
    (applyBatches espeakInit [some [1, 2], none]).length ≠ none ∧
    EspeakText.read zeroBatchStream 100 1 = some (Except.error PyErr.attrError) :=
  ⟨C10_length_undefined_without_data.1 [none] (by simp),
   C10_length_undefined_without_data.2.1 [some [1, 2], none] [1, 2] (by simp),
   C10_length_undefined_without_data.2.2.2 0⟩

/-- If the text holds a terminator, the sentence scan produces at least one
match. -/
theorem sentenceFindallAux_ne_nil (terms : List Char) :
    ∀ s acc : List Char, (∃ c ∈ s, c ∈ terms) →
      sentenceFindallAux terms s acc ≠ [] := by
  intro s
  induction s with
  | nil => intro acc h; simp at h
  | cons c cs ih =>
      intro acc h
      by_cases hc : c ∈ terms
      · simp [sentenceFindallAux, hc]
      · have h2 : ∃ d ∈ cs, d ∈ terms := by
          rcases h with ⟨d, hd, hdt⟩
          rcases List.mem_cons.1 hd with rfl | hmem
          · exact absurd hdt hc
          · exact ⟨d, hmem, hdt⟩
        simp only [sentenceFindallAux, if_neg hc]
        exact ih _ h2

/-- If the text holds no terminator, the sentence scan produces no match. -/
theorem sentenceFindallAux_eq_nil (terms : List Char) :
    ∀ s acc : List Char, (∀ c ∈ s, c ∉ terms) →
      sentenceFindallAux terms s acc = [] := by
  intro s
  induction s with
  | nil => intro acc _; rfl
  | cons c cs ih =>
      intro acc h
      have hc : c ∉ terms := h c (List.mem_cons_self c cs)
      simp only [sentenceFindallAux, if_neg hc]
      exact ih _ fun d hd => h d (List.mem_cons_of_mem c hd)

/-- A run of characters without line boundaries splits into the single
line made of the accumulator followed by the run (when non-empty). -/
theorem splitlinesAux_no_break :
    ∀ s acc : List Char, (∀ c ∈ s, isLinebreak c = false) →
      splitlinesAux s acc = if acc ++ s = [] then [] else [acc ++ s] := by
  intro s
  induction s with
  | nil => intro acc _; simp [splitlinesAux]
  | cons c cs ih =>
      intro acc h
      have hc : isLinebreak c = false := h c (List.mem_cons_self c cs)
      rw [splitlinesAux, if_neg (by simp [hc])]
      rw [ih (acc ++ [c]) fun d hd => h d (List.mem_cons_of_mem c hd)]
      simp

/-- C4: when the input text holds at least one character of the default
terminator set, the chunk list of `Text` equals the list of matches of the
sentence regex (any characters up to and including a terminator, spanning
line breaks); when it holds none, the chunk list is the line split of the
text, which for single-line terminator-free non-empty input is the single
chunk equal to the text; and the driving scenario: the default-terminator
chunking of "Hello world. How are you?" is exactly the two chunks
"Hello world." and " How are you?". -/
theorem C4_sentence_chunking (text : List Char) :
    ((∃ c ∈ text, c ∈ defaultTerms) →
      (mkText text).line_list = sentenceFindall defaultTerms text) ∧
    ((∀ c ∈ text, c ∉ defaultTerms) →
      (mkText text).line_list = splitlines text) ∧
    ((∀ c ∈ text, c ∉ defaultTerms) → (∀ c ∈ text, isLinebreak c = false) →
      text ≠ [] → (mkText text).line_list = [text]) ∧
    (mkText "Hello world. How are you?".data).line_list =
      ["Hello world.".data, " How are you?".data] := by
  refine ⟨?_, ?_, ?_, by decide⟩
  · intro h
    have hne : sentenceFindall defaultTerms text ≠ [] :=
      sentenceFindallAux_ne_nil defaultTerms text [] h
    simp [mkText, hne]
  · intro h
    have he : sentenceFindall defaultTerms text = [] :=
      sentenceFindallAux_eq_nil defaultTerms text [] h
    by_cases ht : text = []
    · subst ht; simp [mkText, splitlines, splitlinesAux, sentenceFindall,
        sentenceFindallAux]
    · simp [mkText, he, ht]
  · intro h1 h2 h3
    have he : sentenceFindall defaultTerms text = [] :=
      sentenceFindallAux_eq_nil defaultTerms text [] h1
    have hs : splitlines text = [text] := by
      rw [splitlines, splitlinesAux_no_break text [] h2]
      simp [h3]
    simp [mkText, he, h3, hs]

/-- C4 witness: the theorem applied to a text with a terminator and to a
single-line terminator-free text. -/
theorem C4_sentence_chunking_witness :
    (mkText "a.b".data).line_list = sentenceFindall defaultTerms "a.b".data ∧
    (mkText "no terminators here".data).line_list =
      ["no terminators here".data] :=
  ⟨(C4_sentence_chunking "a.b".data).1 ⟨'.', by decide, by decide⟩,
   (C4_sentence_chunking "no terminators here".data).2.2.1
     (by decide) (by decide) (by decide)⟩

/-- A normalised slice index never exceeds the sequence length. -/
theorem pyIdx_le (L : Nat) (i : Int) : pyIdx L i ≤ L := by
  unfold pyIdx
  split <;> omega

/-- Widening the stop index by `s ≥ 0` widens the normalised index by at
most `s`. -/
theorem pyIdx_add_le (L : Nat) (i s : Int) (hs : 0 ≤ s) :
    pyIdx L (i + s) ≤ pyIdx L i + s.toNat := by
  unfold pyIdx
  split_ifs <;> omega

/-- A slice of width `s ≥ 0` holds at most `s` elements. -/
theorem pySlice_length_le (l : List α) (i s : Int) (hs : 0 ≤ s) :
    (pySlice l i (i + s)).length ≤ s.toNat := by
  unfold pySlice
  rw [List.length_drop, List.length_take]
  have h1 := pyIdx_add_le l.length i s hs
  omega

/-- A slice starting at or past the end of the sequence is empty. -/
theorem pySlice_eq_nil (l : List α) (i j : Int) (h0 : 0 ≤ i)
    (hL : (l.length : Int) ≤ i) : pySlice l i j = [] := by
  apply List.length_eq_zero.mp
  unfold pySlice pyIdx
  rw [List.length_drop, List.length_take]
  split_ifs <;> omega

/-- A slice of positive width starting strictly inside the sequence is
non-empty, and either has the full requested width or ends exactly at the
end of the sequence. -/
theorem pySlice_from_lt (l : List α) (i nn : Int) (h0 : 0 ≤ i)
    (hi : i < (l.length : Int)) (hn : 0 < nn) :
    1 ≤ (pySlice l i (i + nn)).length ∧
    (((pySlice l i (i + nn)).length : Int) = nn ∨
      i + ((pySlice l i (i + nn)).length : Int) = (l.length : Int)) := by
  unfold pySlice pyIdx
  rw [List.length_drop, List.length_take]
  split_ifs <;> omega

/-- Any successful result of the read loop holds at most `n` bytes, as
long as the pending `size` and the accumulated `data` are bounded by `n`. -/
theorem readLoop_ok_length_le (buf : List UInt8) (len? : Option Int)
    (done : Bool) (n : Int) :
    ∀ (fuel : Nat) (size : Int) (data : List UInt8) (pos : Int)
      (res : List UInt8) (p2 : Int),
      size ≤ n → (data.length : Int) ≤ n →
      readLoop buf len? done fuel size data pos =
        some (Except.ok (res, p2)) →
      (res.length : Int) ≤ n := by
  intro fuel
  induction fuel with
  | zero =>
      intro size data pos res p2 _ _ h
      simp [readLoop] at h
  | succ fuel ih =>
      intro size data pos res p2 hs hd h
      simp only [readLoop] at h
      split at h
      · -- loop entered
        have hchunk :=
          pySlice_length_le buf pos (size - (data.length : Int)) (by omega)
        split at h
        · -- `_length` unassigned: AttributeError, not a success
          simp at h
        · -- `_length` assigned
          split at h
          · -- break with padding
            simp only [Option.some.injEq, Except.ok.injEq,
              Prod.mk.injEq] at h
            obtain ⟨h1, _⟩ := h
            subst h1
            split
            · next he =>
                simp only [List.isEmpty_iff, List.append_eq_nil] at he
                rw [he.2]
                simpa using hd
            · simp only [List.length_append, List.length_replicate,
                Nat.cast_add]
              omega
          · -- recurse
            refine ih _ _ _ _ _ (by omega) ?_ h
            simp only [List.length_append, Nat.cast_add]
            omega
      · -- loop not entered: result is the accumulated data
        simp only [Option.some.injEq, Except.ok.injEq, Prod.mk.injEq] at h
        obtain ⟨h1, _⟩ := h
        subst h1
        exact hd

/-- One iteration of the read loop started with the cursor already at the
buffered length, `done` set and the recorded length equal to the buffer
length, immediately breaks and returns the empty byte string — the
`if data:` guard skips the null padding. -/
theorem readLoop_at_end (buf : List UInt8) (n : Int) (fuel : Nat) :
    readLoop buf (some (buf.length : Int)) true (fuel + 1) n []
        (buf.length : Int) =
      some (Except.ok ([], (buf.length : Int))) := by
  simp only [readLoop]
  by_cases hn : ((([] : List UInt8).length : Int) < n)
  · rw [if_pos hn,
      pySlice_eq_nil buf _ _ (Int.natCast_nonneg _) (le_refl _)]
    simp
  · rw [if_neg hn]

/-- A one-byte stream fully played out: cursor at the buffered length,
`done` set. -/
def endedStream : EspeakText :=
  { espeakInit with data_buffer := [7], position := 1, done := true, length := some 1 }

/-- C3 counterexample: on a stream whose cursor has already reached the
buffered length with `done` set, `read(100)` returns the empty byte string
— zero bytes, not the claimed 100 null-padded bytes (the padding is guarded
by `if data:` and the loop never produced a byte). -/
theorem C3_counterexample :
    EspeakText.read endedStream 100 1 = some (Except.ok ([], endedStream)) ∧
    ([] : List UInt8).length ≠ 100 := by
  refine ⟨rfl, by decide⟩

/-- C3 amended: `read(n)` never returns more than `n` bytes (for `n ≥ 0`);
but once `done` is set and the cursor is at the buffered length, `read(n)`
returns the empty byte string — not `n` null-padded bytes — and leaves the
stream unchanged; and after a synthesis run that delivered zero batches,
`read(100)` raises `AttributeError` (the end-of-data check reads the
never-assigned `_length`) instead of returning 100 null bytes. -/
theorem C3_read_bounds :
    (∀ (s : EspeakText) (n : Int) (fuel : Nat) (res : List UInt8)
       (s2 : EspeakText), 0 ≤ n →
       EspeakText.read s n fuel = some (Except.ok (res, s2)) →
       (res.length : Int) ≤ n) ∧
    (∀ (s : EspeakText) (n : Int) (fuel : Nat),
       s.length = some ((s.data_buffer.length : Int)) →
       s.position = (s.data_buffer.length : Int) → s.done = true →
       EspeakText.read s n (fuel + 1) = some (Except.ok ([], s))) ∧
    (∀ fuel : Nat, EspeakText.read zeroBatchStream 100 (fuel + 1) =
       some (Except.error PyErr.attrError)) := by
  refine ⟨?_, ?_, ?_⟩
  · intro s n fuel res s2 hn h
    rw [EspeakText.read] at h
    rcases hr : readLoop s.data_buffer s.length s.done fuel n [] s.position
      with _ | r
    · rw [hr] at h
      simp at h
    · rw [hr] at h
      rcases r with e | dp
    
      · simp [Except.map] at h
      · simp only [Option.map_some', Except.map, Option.some.injEq,
          Except.ok.injEq, Prod.mk.injEq] at h
        obtain ⟨h1, _⟩ := h
        subst h1
        exact readLoop_ok_length_le s.data_buffer s.length s.done n fuel n
          [] s.position dp.1 dp.2 (le_refl n) (by simpa using hn) hr
  · intro s n fuel hlen hpos hdone
    have hr : readLoop s.data_buffer s.length s.done (fuel + 1) n []
        s.position = some (Except.ok ([], s.position)) := by
      rw [hlen, hpos, hdone]
      exact readLoop_at_end s.data_buffer n fuel
    rw [EspeakText.read, hr]
    simp only [Option.map_some', Except.map]
  · intro fuel
    simp [EspeakText.read, zeroBatchStream, applyBatches, synthCallback,
          espeakInit, readLoop, pySlice, pyIdx, Except.map]

/-- C3 witness: the amended theorem applied to the played-out one-byte
stream. -/
theorem C3_read_bounds_witness :
    ((([] : List UInt8).length : Int) ≤ 100) ∧
    EspeakText.read endedStream 5 1 = some (Except.ok ([], endedStream)) :=
  ⟨C3_read_bounds.1 endedStream 100 1 [] endedStream (by norm_num) rfl,
   C3_read_bounds.2.1 endedStream 5 0 rfl rfl rfl⟩

/-- A three-byte stream whose cursor has consumed the whole buffer but whose
synthesis has not signalled completion. -/
def stuckStream : EspeakText :=
  { espeakInit with data_buffer := [1, 2, 3], position := 3, length := some 3 }

/-- On the stuck stream's loop state, every iteration reads zero bytes,
leaves `size`, `data` and the cursor unchanged, and never breaks (the
end-of-data check needs `done`), so no amount of fuel finishes the loop. -/
theorem readLoop_stuck (fuel : Nat) :
    readLoop [1, 2, 3] (some 3) false fuel 100 [] 3 = none := by
  induction fuel with
  | zero => rfl
  | succ fuel ih =>
      simp only [readLoop]
      norm_num [pySlice, pyIdx]
      exact ih

/-- C7 counterexample: `read(100)` on a stream whose cursor has reached the
buffered length while `done` is still false busy-waits forever — no fuel
bound makes the `while len(data) < size` loop terminate, because the slice
`buffer[position:position+size]` is empty and `done` never lets the
end-of-data break fire. -/
theorem C7_counterexample :
    ¬ ∃ fuel : Nat, (EspeakText.read stuckStream 100 fuel).isSome = true := by
  rintro ⟨fuel, h⟩
  have hs : EspeakText.read stuckStream 100 fuel =
      (readLoop [1, 2, 3] (some 3) false fuel 100 [] 3).map
        (fun r => r.map (fun dp => (dp.1, { stuckStream with position := dp.2 }))) := rfl
  rw [hs, readLoop_stuck fuel] at h
  simp at h

/-- One unfolding of the read loop when `_length` is assigned, with the
local bindings expanded. -/
theorem readLoop_succ_some (buf : List UInt8) (L : Int) (done : Bool)
    (fuel : Nat) (size : Int) (data : List UInt8) (pos : Int) :
    readLoop buf (some L) done (fuel + 1) size data pos =
      if (data.length : Int) < size then
        (if pos + ((data ++ pySlice buf pos
              (pos + (size - (data.length : Int)))).length : Int) = L ∧
            done = true then
          some (Except.ok
            ((if (data ++ pySlice buf pos
                  (pos + (size - (data.length : Int)))).isEmpty then
                data ++ pySlice buf pos (pos + (size - (data.length : Int)))
              else (data ++ pySlice buf pos
                  (pos + (size - (data.length : Int)))) ++
                List.replicate ((size - (data.length : Int)) -
                  ((data ++ pySlice buf pos
                    (pos + (size - (data.length : Int)))).length : Int)).toNat
                  0),
             pos + ((data ++ pySlice buf pos
               (pos + (size - (data.length : Int)))).length : Int)))
        else readLoop buf (some L) done fuel (size - (data.length : Int))
          (data ++ pySlice buf pos (pos + (size - (data.length : Int))))
          (pos + ((data ++ pySlice buf pos
            (pos + (size - (data.length : Int)))).length : Int)))
      else some (Except.ok (data, pos)) := rfl

/-- The read loop, once the cursor sits at or past the end of the buffer
with at least one byte already accumulated, finishes within `size + 1`
iterations: each pass shrinks `size` by the accumulated byte count. -/
theorem readLoop_tail_some (buf : List UInt8) (L : Int) (done : Bool) :
    ∀ (k : Nat) (size : Int) (data : List UInt8) (pos : Int),
      size.toNat ≤ k → 1 ≤ data.length → (buf.length : Int) ≤ pos →
      (readLoop buf (some L) done (k + 1) size data pos).isSome = true := by
  intro k
  induction k with
  | zero =>
      intro size data pos hk hd hp
      rw [readLoop_succ_some,
        if_neg (show ¬((data.length : Int) < size) by omega)]
      rfl
  | succ k ih =>
      intro size data pos hk hd hp
      rw [readLoop_succ_some]
      by_cases hc : ((data.length : Int) < size)
      · rw [if_pos hc]
        have hnil : pySlice buf pos (pos + (size - (data.length : Int))) = [] :=
          pySlice_eq_nil buf pos _ (by omega) hp
        rw [hnil, List.append_nil]
        by_cases hb : (pos + (data.length : Int) = L ∧ done = true)
        · rw [if_pos hb]
          rfl
        · rw [if_neg hb]
          exact ih (size - (data.length : Int)) data
            (pos + (data.length : Int)) (by omega) hd (by omega)
      · rw [if_neg hc]
        rfl

/-- The `.isSome` of a read is `.isSome` of its underlying loop run. -/
theorem read_isSome_eq (s : EspeakText) (n : Int) (fuel : Nat) :
    (EspeakText.read s n fuel).isSome =
      (readLoop s.data_buffer s.length s.done fuel n [] s.position).isSome := by
  rw [EspeakText.read]
  cases readLoop s.data_buffer s.length s.done fuel n [] s.position <;> rfl

/-- When unread bytes remain (cursor strictly inside the buffer), the read
loop terminates: the first pass consumes at least one byte, and either the
request is filled, or the break fires, or the loop drains by the
`size`-shrinking argument. -/
theorem read_terminates_of_lt (s : EspeakText) (n : Int)
    (hlen : s.length = some ((s.data_buffer.length : Int)))
    (hpos : 0 ≤ s.position)
    (hplt : s.position < (s.data_buffer.length : Int)) :
    ∃ fuel : Nat, (EspeakText.read s n fuel).isSome = true := by
  by_cases hn : 0 < n
  · obtain ⟨hd1, hd2⟩ :=
      pySlice_from_lt s.data_buffer s.position n hpos hplt hn
    refine ⟨n.toNat + 1 + 1, ?_⟩
    rw [read_isSome_eq, hlen, readLoop_succ_some]
    rw [if_pos (show ((([] : List UInt8)).length : Int) < n by
      simpa using hn)]
    simp only [List.nil_append, List.length_nil, Nat.cast_zero, sub_zero]
    by_cases hb : (s.position +
        ((pySlice s.data_buffer s.position (s.position + n)).length : Int) =
          (s.data_buffer.length : Int) ∧ s.done = true)
    · rw [if_pos hb]
      rfl
    · rw [if_neg hb]
      rcases hd2 with hfull | hend
      · rw [readLoop_succ_some,
          if_neg (show ¬(((pySlice s.data_buffer s.position
            (s.position + n)).length : Int) < n) by omega)]
        rfl
      · exact readLoop_tail_some s.data_buffer _ s.done n.toNat n _ _
          (by omega) (by omega) (by omega)
  · refine ⟨1, ?_⟩
    rw [read_isSome_eq, hlen]
    rw [readLoop_succ_some,
      if_neg (show ¬((([] : List UInt8).length : Int) < n) by
        simpa using hn)]
    rfl

/-- C7 amended: `read(n)` terminates without waiting whenever there is
nothing left to wait for — `n ≤ 0`, or `done` is set with the cursor within
the buffer, or unread buffered data remains; but it is not blocking-free in
general: with the cursor at the buffered length and `done` unset it
busy-waits forever (the counterexample above). -/
theorem C7_read_terminates (s : EspeakText) (n : Int)
    (hlen : s.length = some ((s.data_buffer.length : Int)))
    (hpos : 0 ≤ s.position)
    (h : n ≤ 0 ∨ (s.done = true ∧ s.position ≤ (s.data_buffer.length : Int)) ∨
         s.position < (s.data_buffer.length : Int)) :
    ∃ fuel : Nat, (EspeakText.read s n fuel).isSome = true := by
  rcases h with hn | ⟨hdone, hple⟩ | hplt
  · refine ⟨1, ?_⟩
    rw [read_isSome_eq, hlen]
    rw [readLoop_succ_some,
      if_neg (show ¬((([] : List UInt8).length : Int) < n) by
        simp
        omega)]
    rfl
  · rcases eq_or_lt_of_le hple with heq | hlt
    · refine ⟨1, ?_⟩
      rw [read_isSome_eq]
      have hr : readLoop s.data_buffer s.length s.done 1 n [] s.position =
          some (Except.ok ([], s.position)) := by
        rw [hlen, heq, hdone]
        exact readLoop_at_end s.data_buffer n 0
      rw [hr]
      rfl
    · exact read_terminates_of_lt s n hlen hpos hlt
  · exact read_terminates_of_lt s n hlen hpos hplt

/-- C7 witness: the amended theorem applied to a stream with unread data. -/
theorem C7_read_terminates_witness :
    ∃ fuel : Nat,
      (EspeakText.read { espeakInit with data_buffer := [1, 2, 3], length := some 3 } 2 fuel).isSome = true :=
  C7_read_terminates
    { espeakInit with data_buffer := [1, 2, 3], length := some 3 } 2 rfl
    (by norm_num [espeakInit]) (Or.inr (Or.inr (by norm_num [espeakInit])))
